import Mathlib

/-!
Verification of the Vylo personal-finance backend core: income envelope
writes, budget reconciliation, savings aggregation, and the chat
orchestrator.  JavaScript objects are embedded as association lists
`List (String × α)` (insertion-ordered, unique keys, property update in
place, new property appended at the end), JavaScript numbers as `ℤ`, and
fallible route handlers as `Except`.
-/

set_option linter.unusedVariables false

deriving instance DecidableEq for Except

abbrev SMapQ := List (String × ℤ)

/-- Property read `m[k]`: first binding of the key, if any. -/
def sLookup {α : Type} (m : List (String × α)) (k : String) : Option α :=
  match m with
  | [] => none
  | p :: t => if p.1 = k then some p.2 else sLookup t k

/-- Property write `m[k] = v`: overwrite in place, else append at the end
(the JavaScript spread-then-set idiom keeps an existing key at its
position). -/
def setKey {α : Type} (m : List (String × α)) (k : String) (v : α) :
    List (String × α) :=
  match m with
  | [] => [(k, v)]
  | p :: t => if p.1 = k then (p.1, v) :: t else p :: setKey t k v

/-- Property delete (the Mongo `unset` of a nested key). -/
def eraseKey {α : Type} (m : List (String × α)) (k : String) :
    List (String × α) :=
  match m with
  | [] => []
  | p :: t => if p.1 = k then t else p :: eraseKey t k

/-- Sum of the values of an object, `Object.values(m).reduce((s,a) => s+a, 0)`. -/
def sumVals (m : SMapQ) : ℤ := (m.map Prod.snd).sum

/-- Numeric read with default 0: `(m[k] || 0)`. -/
def getDQ (m : SMapQ) (k : String) : ℤ := (sLookup m k).getD 0

/-- JavaScript truthiness of the property read `m[k]`: the key is present
and its numeric value is nonzero. -/
def truthy (m : SMapQ) (k : String) : Bool :=
  match sLookup m k with
  | some v => decide (v ≠ 0)
  | none => false

/-- Accumulating write `m[k] = (m[k] || 0) + a`. -/
def bump (m : SMapQ) (k : String) (a : ℤ) : SMapQ :=
  match m with
  | [] => [(k, a)]
  | p :: t => if p.1 = k then (p.1, p.2 + a) :: t else p :: bump t k a

/-! ### Data model -/

/-- One recorded expense line, as stored in the entries collection.
The opaque `id` and free-form extra properties are not consulted by any
computation verified here and are omitted. -/
structure Entry where
  code : String
  amount : ℤ
  item : String
  confidence : Option ℤ
deriving DecidableEq

/-- The per-day node `{ entries: [...] }`; the `entries` property may be
absent (`dayData.entries` undefined), which every loop skips. -/
structure DayData where
  entries : Option (List Entry)
deriving DecidableEq

/-- A month of entries, keyed by day-of-month string. -/
abbrev MonthData := List (String × DayData)

/-- The per-user entries document, keyed by `YYYY-MM`. -/
abbrev EntriesStore := List (String × MonthData)

/-- A monthly budget: declared total and category allocations. -/
structure Budget where
  total : ℤ
  categories : SMapQ
deriving DecidableEq

/-- One taxonomy node from `data/categories.json` (code and optional
parent code).  The data file is not part of the sources, so the taxonomy
is passed explicitly, matching its use as a static lookup table. -/
structure CatNode where
  code : String
  parent : Option String
deriving DecidableEq

/-- A monthly income record: declared total and source breakdown.
The stored timestamp is not consulted by any computation and is omitted. -/
structure Income where
  total : ℤ
  sources : SMapQ
deriving DecidableEq

/-- The per-user income document, keyed by `YYYY-MM`. -/
abbrev IncomeDoc := List (String × Income)

/-! ### String format validators (route-boundary regexes) -/

/-- The `YYYY-MM` regex check. -/
def isValidMonthStr (s : String) : Bool :=
  match s.toList with
  | [y1, y2, y3, y4, d1, m1, m2] =>
    y1.isDigit && y2.isDigit && y3.isDigit && y4.isDigit &&
      (d1 == '-') && m1.isDigit && m2.isDigit
  | _ => false

/-- The `YYYY-MM-DD` regex check. -/
def isValidDateStr (s : String) : Bool :=
  match s.toList with
  | [y1, y2, y3, y4, d1, m1, m2, d2, a1, a2] =>
    y1.isDigit && y2.isDigit && y3.isDigit && y4.isDigit &&
      (d1 == '-') && m1.isDigit && m2.isDigit &&
      (d2 == '-') && a1.isDigit && a2.isDigit
  | _ => false

/-! ### Income envelope writer (POST /api/v1/income, PUT /api/v1/income/:month,
DELETE /api/v1/income/:month) -/

inductive IncErr where
  | badRequest
  | missingFields
  | sourcesExceedTotal
  | notFound
deriving DecidableEq

/-- POST /api/v1/income: set the income for a month.  Requires a valid
month and a non-negative total; sources, when given, must be
non-negative, must not exceed the total, and a shortfall is synthesized
into a `miscellaneous` source written with the spread-then-set idiom. -/
def setIncome (month : String) (total : ℤ) (s? : Option SMapQ) :
    Except IncErr Income :=
  if isValidMonthStr month = true ∧ 0 ≤ total then
    match s? with
    | none => Except.ok ⟨total, [("main", total)]⟩
    | some s =>
      if s.any (fun p => decide (p.2 < 0)) then Except.error IncErr.badRequest
      else if sumVals s > total then Except.error IncErr.sourcesExceedTotal
      else if sumVals s < total then
        Except.ok ⟨total, setKey s "miscellaneous" (total - sumVals s)⟩
      else Except.ok ⟨total, s⟩
  else Except.error IncErr.badRequest

/-- JavaScript falsiness of the optional numeric field `total`
(`!total`): absent or zero. -/
def jsFalsyOptNum (t? : Option ℤ) : Bool :=
  match t? with
  | none => true
  | some t => decide (t = 0)

/-- PUT /api/v1/income/:month: the argument-presence check
`if (!total && !sources)` runs first, then per-field validation, then the
existence check, then the three consistency cases of the source code. -/
def updateIncome (existing : Option Income) (month : String) (t? : Option ℤ)
    (s? : Option SMapQ) : Except IncErr Income :=
  if isValidMonthStr month = false then Except.error IncErr.badRequest
  else if jsFalsyOptNum t? = true ∧ s? = none then Except.error IncErr.missingFields
  else if (match t? with | some t => decide (t < 0) | none => false) = true then
    Except.error IncErr.badRequest
  else if (match s? with
           | some s => s.any (fun p => decide (p.2 < 0))
           | none => false) = true then
    Except.error IncErr.badRequest
  else
    match existing with
    | none => Except.error IncErr.notFound
    | some ex =>
      match t?, s? with
      | some t, some s =>
        if sumVals s > t then Except.error IncErr.sourcesExceedTotal
        else if sumVals s < t then
          Except.ok ⟨t, setKey s "miscellaneous" (t - sumVals s)⟩
        else Except.ok ⟨t, s⟩
      | some t, none =>
        if sumVals ex.sources > t then Except.error IncErr.sourcesExceedTotal
        else if sumVals ex.sources < t then
          Except.ok ⟨t, setKey ex.sources "miscellaneous" (t - sumVals ex.sources)⟩
        else Except.ok ⟨t, ex.sources⟩
      | none, some s =>
        if sumVals s > ex.total then Except.error IncErr.sourcesExceedTotal
        else if sumVals s < ex.total then
          Except.ok ⟨ex.total, setKey s "miscellaneous" (ex.total - sumVals s)⟩
        else Except.ok ⟨ex.total, s⟩
      | none, none => Except.error IncErr.missingFields

/-- Outcome of DELETE /api/v1/income/:month: the route distinguishes only
"no document matched the user" (404) from "matched" (success), reporting
the resulting document in the latter case. -/
inductive DelResult where
  | ok (newDoc : IncomeDoc)
  | notFoundUser
  | badRequest
deriving DecidableEq

/-- DELETE /api/v1/income/:month: unsets the month key; only
`matchedCount === 0` (no income document for the user at all) yields the
404. -/
def deleteIncome (doc : Option IncomeDoc) (month : String) : DelResult :=
  if isValidMonthStr month = false then DelResult.badRequest
  else
    match doc with
    | none => DelResult.notFoundUser
    | some d => DelResult.ok (eraseKey d month)

/-! ### Entries route (POST /api/v1/entries/add-user-entries) -/

inductive ApiErr where
  | badRequest
  | invalidEntrySchema
  | notFound
deriving DecidableEq

/-- A JavaScript value as far as the entry schema validation inspects it:
`typeof` distinguishes numbers, strings and booleans; absent properties
read as undefined. -/
inductive JsVal where
  | num (q : ℤ)
  | str (s : String)
  | boolean (b : Bool)
  | nullV
  | undef
deriving DecidableEq

/-- A submitted entry object, before validation.  Fields not sent are
`JsVal.undef`. -/
structure RawEntry where
  code : JsVal
  amount : JsVal
  item : JsVal
  confidence : JsVal
deriving DecidableEq

/-- The per-entry schema check of POST /add-user-entries: `code` a string,
`amount` a number, `item` a string, `confidence` absent or a number.
No bound on the value of `amount` is checked. -/
def validEntry (e : RawEntry) : Bool :=
  (match e.code with | JsVal.str _ => true | _ => false) &&
  (match e.amount with | JsVal.num _ => true | _ => false) &&
  (match e.item with | JsVal.str _ => true | _ => false) &&
  (match e.confidence with
   | JsVal.undef => true
   | JsVal.num _ => true
   | _ => false)

/-- The stored form of a validated entry (fields read out of the raw
object; defaults are irrelevant because validation has pinned the types). -/
def parseEntry (e : RawEntry) : Entry :=
  { code := match e.code with | JsVal.str s => s | _ => "",
    amount := match e.amount with | JsVal.num q => q | _ => 0,
    item := match e.item with | JsVal.str s => s | _ => "",
    confidence := match e.confidence with | JsVal.num q => some q | _ => none }

/-- POST /api/v1/entries/add-user-entries: non-empty entries array, date
in `YYYY-MM-DD`, then the per-entry schema loop; on success the submitted
entries are pushed wholesale. -/
def addUserEntries (entries : List RawEntry) (date : String) :
    Except ApiErr (List Entry) :=
  if entries.isEmpty then Except.error ApiErr.badRequest
  else if isValidDateStr date = false then Except.error ApiErr.badRequest
  else if entries.all validEntry then Except.ok (entries.map parseEntry)
  else Except.error ApiErr.invalidEntrySchema

/-- Association-list update-or-insert used to model Mongo nested-path
upserts: apply `f` to the value at `k` (absent reads as `none`). -/
def updateKey {α : Type} (m : List (String × α)) (k : String)
    (f : Option α → α) : List (String × α) :=
  match m with
  | [] => [(k, f none)]
  | p :: t => if p.1 = k then (p.1, f (some p.2)) :: t else p :: updateKey t k f

/-- The `$push` of new entries into `month.day.entries` with upsert. -/
def pushEntries (store : EntriesStore) (month day : String)
    (new : List Entry) : EntriesStore :=
  updateKey store month (fun md? =>
    updateKey (md?.getD []) day (fun d? =>
      ⟨some (((d?.getD ⟨none⟩).entries.getD []) ++ new)⟩))

/-! ### Budget reconciliation (GET /api/v1/budgets/:month/remaining) -/

/-- Parent lookup in the taxonomy:
`categories.find(cat => cat.code === categoryCode)?.parent`. -/
def parentOf (tax : List CatNode) (code : String) : Option String :=
  (tax.find? (fun c => c.code == code)).bind CatNode.parent

/-- The spend bucket an entry code resolves to, exactly as the route
decides it: a truthy exact budget key, else a truthy (and non-empty)
taxonomy parent key, else (`none`) the miscellaneous bucket. -/
def bucketKey (tax : List CatNode) (cats : SMapQ) (code : String) :
    Option String :=
  if truthy cats code = true then some code
  else
    match parentOf tax code with
    | some p => if p ≠ "" ∧ truthy cats p = true then some p else none
    | none => none

/-- One iteration of the entries loop of the route: state is the
expenses-by-category object paired with the running miscellaneous sum. -/
def stepEntry (tax : List CatNode) (cats : SMapQ) (st : SMapQ × ℤ)
    (e : Entry) : SMapQ × ℤ :=
  if truthy cats e.code = true then (bump st.1 e.code e.amount, st.2)
  else
    match parentOf tax e.code with
    | some p =>
      if p ≠ "" ∧ truthy cats p = true then (bump st.1 p e.amount, st.2)
      else (st.1, st.2 + e.amount)
    | none => (st.1, st.2 + e.amount)

/-- The full entries loop, starting from an empty object and zero
miscellaneous spend. -/
def spendFold (tax : List CatNode) (cats : SMapQ) (entries : List Entry) :
    SMapQ × ℤ :=
  entries.foldl (stepEntry tax cats) ([], 0)

/-- Flattening of a month of entries in iteration order
(`Object.values(monthlyEntries)`, skipping days without an `entries`
array). -/
def flattenMonth (md : MonthData) : List Entry :=
  md.foldl (fun acc p => acc ++ p.2.entries.getD []) []

/-- The reconciliation response (timestamp-free fields actually computed
by the route). -/
structure ReconResult where
  originalBudget : Budget
  totalSpent : ℤ
  totalRemaining : ℤ
  remainingBudgets : SMapQ
  expensesByCategory : SMapQ
deriving DecidableEq

/-- GET /api/v1/budgets/:month/remaining: month format check, budget
existence check, the spend loop, then the derived remaining figures.  The
response's expenses object is the accumulated object with the key `MIS`
set to the miscellaneous spend. -/
def remaining (tax : List CatNode) (bdoc : Option (List (String × Budget)))
    (edoc : Option EntriesStore) (month : String) :
    Except ApiErr ReconResult :=
  if isValidMonthStr month = false then Except.error ApiErr.badRequest
  else
    match bdoc.bind (fun d => sLookup d month) with
    | none => Except.error ApiErr.notFound
    | some b =>
      let s := spendFold tax b.categories
        (flattenMonth ((edoc.bind (fun d => sLookup d month)).getD []))
      Except.ok
        { originalBudget := b,
          totalSpent := sumVals s.1 + s.2,
          totalRemaining := b.total - (sumVals s.1 + s.2),
          remainingBudgets :=
            setKey (b.categories.map (fun p => (p.1, p.2 - getDQ s.1 p.1)))
              "MIS" ((b.total - sumVals b.categories) - s.2),
          expensesByCategory := setKey s.1 "MIS" s.2 }

/-! ### Savings engine (GET /api/v1/savings/:year/yearly) -/

/-- `incomeDoc?.income?.[month]?.total || 0`. -/
def getMonthlyIncome (idoc : Option IncomeDoc) (month : String) : ℤ :=
  ((idoc.bind (fun d => sLookup d month)).map Income.total).getD 0

/-- Total of all entry amounts of the month
(`entriesDoc?.[month] || {}`, summed across days). -/
def calculateMonthlyExpenses (edoc : Option EntriesStore) (month : String) : ℤ :=
  ((flattenMonth ((edoc.bind (fun d => sLookup d month)).getD [])).map
    Entry.amount).sum

/-- One row of the monthly breakdown (display-rounded `savingsRate` is
derived from these fields and not consulted by any verified claim). -/
structure MonthFig where
  month : String
  income : ℤ
  expenses : ℤ
  savings : ℤ
deriving DecidableEq

/-- Accumulator of the yearly loop: breakdown rows plus running income
and expense totals. -/
structure YearlyAcc where
  monthlyData : List MonthFig
  totalIncome : ℤ
  totalExpenses : ℤ
deriving DecidableEq

/-- One iteration of the yearly loop over the twelve month keys. -/
def yearStep (idoc : Option IncomeDoc) (edoc : Option EntriesStore)
    (acc : YearlyAcc) (m : String) : YearlyAcc :=
  { monthlyData := acc.monthlyData ++
      [⟨m, getMonthlyIncome idoc m, calculateMonthlyExpenses edoc m,
        getMonthlyIncome idoc m - calculateMonthlyExpenses edoc m⟩],
    totalIncome := acc.totalIncome + getMonthlyIncome idoc m,
    totalExpenses := acc.totalExpenses + calculateMonthlyExpenses edoc m }

/-- Zero-padded month number. -/
def pad2 (n : Nat) : String :=
  if n < 10 then "0" ++ toString n else toString n

/-- The twelve month keys `YYYY-01` .. `YYYY-12` of a year. -/
def yearMonths (year : String) : List String :=
  (List.range 12).map (fun i => year ++ "-" ++ pad2 (i + 1))

/-- `monthlyData.reduce((best, current) => current.savings > best.savings
? current : best)` (JavaScript reduce without seed: first element seeds). -/
def reduceBest (l : List MonthFig) : MonthFig :=
  match l with
  | [] => ⟨"", 0, 0, 0⟩
  | x :: xs => xs.foldl (fun b c => if c.savings > b.savings then c else b) x

/-- The worst-month reduce, mirror image of `reduceBest`. -/
def reduceWorst (l : List MonthFig) : MonthFig :=
  match l with
  | [] => ⟨"", 0, 0, 0⟩
  | x :: xs => xs.foldl (fun b c => if c.savings < b.savings then c else b) x

/-- Summary block of the yearly response (the display-rounded average
rate and monthly averages are derived values not consulted by any
verified claim). -/
structure YearlySummary where
  totalIncome : ℤ
  totalExpenses : ℤ
  totalSavings : ℤ
  monthsWithData : Nat
deriving DecidableEq

/-- The yearly savings response. -/
structure YearlyResult where
  summary : YearlySummary
  monthlyBreakdown : List MonthFig
  bestSavingsMonth : MonthFig
  worstSavingsMonth : MonthFig
  consistentSaver : Bool
deriving DecidableEq

/-- GET /api/v1/savings/:year/yearly: loop over the twelve months
accumulating per-month figures and totals, then assemble summary and
insights. -/
def yearlySavings (idoc : Option IncomeDoc) (edoc : Option EntriesStore)
    (year : String) : YearlyResult :=
  let acc := (yearMonths year).foldl (yearStep idoc edoc) ⟨[], 0, 0⟩
  { summary :=
      ⟨acc.totalIncome, acc.totalExpenses,
        acc.totalIncome - acc.totalExpenses,
        (acc.monthlyData.filter
          (fun m => decide (0 < m.income) || decide (0 < m.expenses))).length⟩,
    monthlyBreakdown := acc.monthlyData,
    bestSavingsMonth := reduceBest acc.monthlyData,
    worstSavingsMonth := reduceWorst acc.monthlyData,
    consistentSaver :=
      decide (9 ≤ (acc.monthlyData.filter (fun m => decide (0 < m.savings))).length) }

/-! ### Chat orchestrator (POST /api/v1/chat) -/

/-- One resolved intent: name plus opaque parameters. -/
structure Intent where
  name : String
  params : String
deriving DecidableEq

/-- One collected per-intent record pushed into `results`. -/
structure ChatRecord where
  intent : Intent
  data : String
  success : Bool
deriving DecidableEq

/-- The intent names of the dispatch switch. -/
def supportedIntents : List String :=
  ["getSpending", "getBudget", "getRemainingBudget", "getSavings",
   "getYearlySavings", "getSavingsSummary", "getIncome", "getAllIncome",
   "getAllBudgets", "addEntries", "createBudget", "setIncome",
   "updateIncome", "deleteIncome", "reassignBudget", "deleteBudget",
   "deleteEntries", "deleteEntry"]

/-- One dispatch branch with its own try/catch: a supported intent gets
the collaborator's outcome for its position (success data, or a caught
failure), an unsupported intent gets its thrown-and-caught local failure.
Exactly one record is produced either way. -/
def dispatchOne (outcome : Nat → Except String String) (k : Nat)
    (i : Intent) : ChatRecord :=
  if i.name ∈ supportedIntents then
    match outcome k with
    | Except.ok d => ⟨i, d, true⟩
    | Except.error m => ⟨i, "error: " ++ m, false⟩
  else ⟨i, "error: Unsupported intent", false⟩

/-- The response payload: raw single-result data, or the keyed
`result1`, `result2`, ... structure (position in the list is the key
index, entries carry intent name and data). -/
inductive ChatCombined where
  | single (data : String)
  | multi (entries : List (String × String))
deriving DecidableEq

/-- Combination step of the handler over the collected records. -/
def combineResults (records : List ChatRecord) : ChatCombined :=
  if records.length = 1 then
    ChatCombined.single ((records.head?.map ChatRecord.data).getD "")
  else
    ChatCombined.multi (records.map (fun r => (r.intent.name, r.data)))

/-- The chat response: HTTP status, reply text, collected records, and
the combined payload (absent on the fail-fast path). -/
structure ChatReply where
  status : Nat
  reply : String
  records : List ChatRecord
  combined : Option ChatCombined
deriving DecidableEq

/-- The fixed clarification reply of the fail-fast branch (wording
abridged). -/
def clarificationReply : String :=
  "I do not understand that question. You can ask me about your own financial data."

/-- The fail-fast test: no intents, or exactly one intent and it is the
`unknown` sentinel. -/
def jsReject (intents : List Intent) : Bool :=
  intents.isEmpty ||
    (intents.length == 1 &&
      ((intents.head?.map Intent.name).getD "") == "unknown")

/-- The records in resolver order, one per intent position. -/
def canonicalRecords (intents : List Intent)
    (outcome : Nat → Except String String) : List ChatRecord :=
  (List.range intents.length).filterMap
    (fun k => (intents.get? k).map (fun i => dispatchOne outcome k i))

/-- POST /api/v1/chat after intent extraction: fail fast on no usable
intent; otherwise dispatch every intent concurrently (the per-branch
completion order is the `order` schedule, a permutation of the branch
indices; each branch pushes its record when it completes), then phrase
and combine.  `phrase1`/`phraseN` stand for the external phrasing
collaborators. -/
def chatHandle (intents : List Intent) (outcome : Nat → Except String String)
    (order : List Nat) (phrase1 : String → String)
    (phraseN : List ChatRecord → String) : ChatReply :=
  if jsReject intents = true then
    { status := 400, reply := clarificationReply, records := [], combined := none }
  else
    let records := order.filterMap
      (fun k => (intents.get? k).map (fun i => dispatchOne outcome k i))
    { status := 200,
      reply := if records.length = 1 then
          phrase1 ((records.head?.map ChatRecord.data).getD "")
        else phraseN records,
      records := records,
      combined := some (combineResults records) }

/-- Collaborator outcomes for the concrete scenarios: both downstream
calls succeed. -/
def outcomeA : Nat → Except String String :=
  fun k => if k == 0 then Except.ok "budget-data" else Except.ok "income-data"

/-- Collaborator outcomes for the concrete scenarios: the first call hits
a nonexistent month, the second succeeds. -/
def outcomeB : Nat → Except String String :=
  fun k =>
    if k == 0 then Except.error "Request failed with status code 404"
    else Except.ok "income-data"

/-- Trivial single-result phrasing collaborator for concrete scenarios. -/
def phraseStub : String → String := fun _ => ""

/-- Trivial multi-result phrasing collaborator for concrete scenarios. -/
def phraseStubN : List ChatRecord → String := fun _ => ""

/-! ## Lemmas about the map embedding -/

@[simp] theorem sLookup_nil {α : Type} (k : String) :
    sLookup ([] : List (String × α)) k = none := rfl

theorem sLookup_cons {α : Type} (p : String × α) (t : List (String × α))
    (k : String) :
    sLookup (p :: t) k = if p.1 = k then some p.2 else sLookup t k := rfl

theorem setKey_of_lookup_none {α : Type} (m : List (String × α)) (k : String)
    (v : α) (h : sLookup m k = none) : setKey m k v = m ++ [(k, v)] := by
  induction m with
  | nil => rfl
  | cons p t ih =>
    rw [sLookup_cons] at h
    by_cases hp : p.1 = k
    · simp [hp] at h
    · simp [setKey, hp] at h ⊢
      exact ih h

theorem sumVals_append (a b : SMapQ) : sumVals (a ++ b) = sumVals a + sumVals b := by
  simp [sumVals]

theorem sumVals_setKey_none (m : SMapQ) (k : String) (v : ℤ)
    (h : sLookup m k = none) : sumVals (setKey m k v) = sumVals m + v := by
  rw [setKey_of_lookup_none m k v h, sumVals_append]
  simp [sumVals]

theorem sLookup_bump_ne (m : SMapQ) (c k : String) (a : ℤ) (h : c ≠ k) :
    sLookup (bump m c a) k = sLookup m k := by
  induction m with
  | nil => simp [bump, sLookup, h]
  | cons p t ih =>
    by_cases hp : p.1 = c
    · simp [bump, hp, sLookup_cons, h]
    · simp only [bump, if_neg hp, sLookup_cons]
      by_cases hk : p.1 = k
      · simp [hk]
      · simp [hk, ih]

theorem getDQ_bump (m : SMapQ) (c k : String) (a : ℤ) :
    getDQ (bump m c a) k = getDQ m k + (if c = k then a else 0) := by
  induction m with
  | nil =>
    by_cases h : c = k <;> simp [bump, getDQ, sLookup, h]
  | cons p t ih =>
    by_cases hp : p.1 = c
    · by_cases hck : c = k
      · simp [bump, hp, getDQ, sLookup_cons, hp.trans hck, hck]
      · have hpk : ¬ p.1 = k := fun hh => hck (hp ▸ hh)
        simp [bump, hp, getDQ, sLookup_cons, hpk, hck]
    · by_cases hpk : p.1 = k
      · have hck : ¬ c = k := fun hh => hp (by rw [hpk, hh])
        have hkc : ¬ k = c := fun hh => hck hh.symm
        simp [bump, hp, getDQ, sLookup_cons, hpk, hck, hkc]
      · simp only [bump, if_neg hp, getDQ, sLookup_cons, if_neg hpk] at ih ⊢
        exact ih

/-! ## Claim C1: income writes keep the stored sources summing to the total -/

/-- Claim C1 (counterexample): a successful setIncome whose submitted
sources already carry a `miscellaneous` key stores sources summing to 90,
not to the stored total 100 — the synthesized shortfall overwrites the
submitted `miscellaneous` value instead of absorbing it. -/
theorem income_write_sum_cex :
    setIncome "2024-01" 100 (some [("salary", 50), ("miscellaneous", 10)]) =
      Except.ok ⟨100, [("salary", 50), ("miscellaneous", 40)]⟩ ∧
    sumVals [("salary", 50), ("miscellaneous", 40)] = 90 ∧ (90 : ℤ) ≠ 100 := by
  decide

/-- Claim C1 (amended): for every income write that succeeds — setIncome
with or without sources, and updateIncome in any of its three cases — the
stored sources sum to the stored total, provided the base sources map in
effect (the submitted sources, or the previously stored sources when only
a total is given) carries no `miscellaneous` key of its own. -/
theorem income_write_sum_amended :
    (∀ (month : String) (total : ℤ) (s : SMapQ) (inc : Income),
        setIncome month total (some s) = Except.ok inc →
        sLookup s "miscellaneous" = none →
        sumVals inc.sources = inc.total) ∧
    (∀ (month : String) (total : ℤ) (inc : Income),
        setIncome month total none = Except.ok inc →
        sumVals inc.sources = inc.total) ∧
    (∀ (ex : Income) (month : String) (t? : Option ℤ) (s? : Option SMapQ)
        (inc : Income),
        updateIncome (some ex) month t? s? = Except.ok inc →
        sLookup (match s? with | some s => s | none => ex.sources)
          "miscellaneous" = none →
        sumVals inc.sources = inc.total) := by
  refine ⟨?_, ?_, ?_⟩
  · intro month total s inc h hm
    by_cases hv : isValidMonthStr month = true ∧ 0 ≤ total
    · simp only [setIncome, if_pos hv] at h
      by_cases hneg : (s.any (fun p => decide (p.2 < 0))) = true
      · rw [if_pos hneg] at h; exact absurd h (by simp)
      · rw [if_neg hneg] at h
        by_cases hgt : sumVals s > total
        · rw [if_pos hgt] at h; exact absurd h (by simp)
        · rw [if_neg hgt] at h
          by_cases hlt : sumVals s < total
          · rw [if_pos hlt, Except.ok.injEq] at h
            subst h
            show sumVals (setKey s "miscellaneous" (total - sumVals s)) = total
            rw [sumVals_setKey_none _ _ _ hm]; ring
          · rw [if_neg hlt, Except.ok.injEq] at h
            subst h
            show sumVals s = total
            omega
    · simp only [setIncome, if_neg hv] at h; exact absurd h (by simp)
  · intro month total inc h
    by_cases hv : isValidMonthStr month = true ∧ 0 ≤ total
    · simp only [setIncome, if_pos hv, Except.ok.injEq] at h
      subst h
      show sumVals [("main", total)] = total
      simp [sumVals]
    · simp only [setIncome, if_neg hv] at h; exact absurd h (by simp)
  · intro ex month t? s? inc h hm
    cases t? with
    | some t =>
      cases s? with
      | some s =>
        simp only [updateIncome, jsFalsyOptNum] at h
        by_cases h1 : isValidMonthStr month = false
        · rw [if_pos h1] at h; exact absurd h (by simp)
        · rw [if_neg h1] at h
          rw [if_neg (by simp)] at h
          by_cases h3 : t < 0
          · rw [if_pos (by simpa using h3)] at h; exact absurd h (by simp)
          · rw [if_neg (by simpa using h3)] at h
            by_cases h4 : (s.any (fun p => decide (p.2 < 0))) = true
            · rw [if_pos h4] at h; exact absurd h (by simp)
            · rw [if_neg h4] at h
              by_cases hgt : sumVals s > t
              · rw [if_pos hgt] at h; exact absurd h (by simp)
              · rw [if_neg hgt] at h
                by_cases hlt : sumVals s < t
                · rw [if_pos hlt, Except.ok.injEq] at h
                  subst h
                  show sumVals (setKey s "miscellaneous" (t - sumVals s)) = t
                  rw [sumVals_setKey_none _ _ _ hm]; ring
                · rw [if_neg hlt, Except.ok.injEq] at h
                  subst h
                  show sumVals s = t
                  omega
      | none =>
        simp only [updateIncome, jsFalsyOptNum] at h
        by_cases h1 : isValidMonthStr month = false
        · rw [if_pos h1] at h; exact absurd h (by simp)
        · rw [if_neg h1] at h
          by_cases ht0 : t = 0
          · rw [if_pos ⟨by simpa using ht0, trivial⟩] at h; exact absurd h (by simp)
          · rw [if_neg (by simp [ht0])] at h
            by_cases h3 : t < 0
            · rw [if_pos (by simpa using h3)] at h; exact absurd h (by simp)
            · rw [if_neg (by simpa using h3)] at h
              rw [if_neg (by simp)] at h
              by_cases hgt : sumVals ex.sources > t
              · rw [if_pos hgt] at h; exact absurd h (by simp)
              · rw [if_neg hgt] at h
                by_cases hlt : sumVals ex.sources < t
                · rw [if_pos hlt, Except.ok.injEq] at h
                  subst h
                  show sumVals
                    (setKey ex.sources "miscellaneous" (t - sumVals ex.sources)) = t
                  rw [sumVals_setKey_none _ _ _ hm]; ring
                · rw [if_neg hlt, Except.ok.injEq] at h
                  subst h
                  show sumVals ex.sources = t
                  omega
    | none =>
      cases s? with
      | some s =>
        simp only [updateIncome, jsFalsyOptNum] at h
        by_cases h1 : isValidMonthStr month = false
        · rw [if_pos h1] at h; exact absurd h (by simp)
        · rw [if_neg h1] at h
          rw [if_neg (by simp)] at h
          rw [if_neg (by simp)] at h
          by_cases h4 : (s.any (fun p => decide (p.2 < 0))) = true
          · rw [if_pos h4] at h; exact absurd h (by simp)
          · rw [if_neg h4] at h
            by_cases hgt : sumVals s > ex.total
            · rw [if_pos hgt] at h; exact absurd h (by simp)
            · rw [if_neg hgt] at h
              by_cases hlt : sumVals s < ex.total
              · rw [if_pos hlt, Except.ok.injEq] at h
                subst h
                show sumVals
                  (setKey s "miscellaneous" (ex.total - sumVals s)) = ex.total
                rw [sumVals_setKey_none _ _ _ hm]; ring
              · rw [if_neg hlt, Except.ok.injEq] at h
                subst h
                show sumVals s = ex.total
                omega
      | none =>
        simp only [updateIncome, jsFalsyOptNum] at h
        by_cases h1 : isValidMonthStr month = false
        · rw [if_pos h1] at h; exact absurd h (by simp)
        · rw [if_neg h1] at h
          rw [if_pos ⟨trivial, trivial⟩] at h
          exact absurd h (by simp)

/-- Claim C1 (amended, witness): a concrete shortfall write — total 100,
sources carrying only salary 60 — stores salary 60 plus miscellaneous 40,
which sum to the stored total. -/
theorem income_write_sum_amended_witness :
    sumVals (Income.mk 100 [("salary", 60), ("miscellaneous", 40)]).sources =
      (Income.mk 100 [("salary", 60), ("miscellaneous", 40)]).total :=
  income_write_sum_amended.1 "2024-01" 100 [("salary", 60)]
    ⟨100, [("salary", 60), ("miscellaneous", 40)]⟩ (by decide) (by decide)

/-! ## Claim C4: updateIncome argument-presence and existence checks -/

/-- Claim C4 (code bug): a month whose income record is reachable through
setIncome (total 0, default `main` source) exists, yet the update that
provides only `total = 0` is rejected as missing its arguments — the
presence check `!total` treats the provided zero as absent, contradicting
the route's own `total !== undefined` validation which accepts zero as a
valid provided total. -/
theorem updateIncome_zero_total_bug :
    setIncome "2024-01" 0 none = Except.ok ⟨0, [("main", 0)]⟩ ∧
    updateIncome (some ⟨0, [("main", 0)]⟩) "2024-01" (some 0) none =
      Except.error IncErr.missingFields := by
  decide

/-! ## Claim C10: deleteIncome succeeds whenever any income document exists -/

/-- Claim C10: for a well-formed month, deleteIncome reports success
whenever the user has an income document at all — the requested month key
is simply unset, a no-op when absent — and reports the not-found error
exactly when the user has no income document whatsoever. -/
theorem deleteIncome_month_absent (doc : Option IncomeDoc) (month : String)
    (h : isValidMonthStr month = true) :
    (∀ d, doc = some d → deleteIncome doc month = DelResult.ok (eraseKey d month)) ∧
    (doc = none → deleteIncome doc month = DelResult.notFoundUser) := by
  constructor
  · intro d hd; subst hd; simp [deleteIncome, h]
  · intro hd; subst hd; simp [deleteIncome, h]

/-- Claim C10 (witness): deleting month `2024-01` for a user whose income
document exists but holds no record for that month still succeeds. -/
theorem deleteIncome_month_absent_witness :
    deleteIncome (some []) "2024-01" = DelResult.ok (eraseKey [] "2024-01") :=
  (deleteIncome_month_absent (some []) "2024-01" (by decide)).1 [] rfl

/-! ## Claim C9: add-entries boundary and entry amounts -/

/-- Claim C9 (counterexample): an entry with amount −5 passes the
add-entries schema validation — only `typeof amount === "number"` is
checked — so the whole request succeeds and the negative entry is
persisted into the store. -/
theorem add_entries_negative_cex :
    addUserEntries
        [⟨JsVal.str "MIS", JsVal.num (-5), JsVal.str "snack", JsVal.undef⟩]
        "2024-01-15" =
      Except.ok [⟨"MIS", -5, "snack", none⟩] ∧
    pushEntries [] "2024-01" "15" [⟨"MIS", -5, "snack", none⟩] =
      [("2024-01", [("15", ⟨some [⟨"MIS", -5, "snack", none⟩]⟩)])] ∧
    ((-5 : ℤ) < 0) := by
  decide

/-- Claim C9 (amended): the add-entries boundary accepts a request
exactly when the list is non-empty, the date is well-formed, and every
entry is well-typed (string code, numeric amount, string item, absent or
numeric confidence); an accepted list is persisted verbatim — no
non-negativity condition on amounts is enforced anywhere. -/
theorem add_entries_schema_amended (entries : List RawEntry) (date : String) :
    ((∃ l, addUserEntries entries date = Except.ok l) ↔
      (entries ≠ [] ∧ isValidDateStr date = true ∧
        ∀ e ∈ entries, validEntry e = true)) ∧
    (∀ l, addUserEntries entries date = Except.ok l →
      l = entries.map parseEntry) := by
  constructor
  · constructor
    · rintro ⟨l, hl⟩
      simp only [addUserEntries] at hl
      by_cases he : entries.isEmpty
      · rw [if_pos he] at hl; exact absurd hl (by simp)
      · rw [if_neg he] at hl
        by_cases hd : isValidDateStr date = false
        · rw [if_pos hd] at hl; exact absurd hl (by simp)
        · rw [if_neg hd] at hl
          by_cases ha : entries.all validEntry
          · refine ⟨?_, ?_, ?_⟩
            · intro hnil; rw [hnil] at he; exact he rfl
            · cases hdb : isValidDateStr date with
              | true => rfl
              | false => exact absurd hdb hd
            · intro e hee
              exact List.all_eq_true.mp ha e hee
          · rw [if_neg ha] at hl; exact absurd hl (by simp)
    · rintro ⟨h1, h2, h3⟩
      refine ⟨entries.map parseEntry, ?_⟩
      simp only [addUserEntries]
      rw [if_neg (by simpa [List.isEmpty_iff] using h1),
        if_neg (by simp [h2]),
        if_pos (List.all_eq_true.mpr h3)]
  · intro l hl
    simp only [addUserEntries] at hl
    by_cases he : entries.isEmpty
    · rw [if_pos he] at hl; exact absurd hl (by simp)
    · rw [if_neg he] at hl
      by_cases hd : isValidDateStr date = false
      · rw [if_pos hd] at hl; exact absurd hl (by simp)
      · rw [if_neg hd] at hl
        by_cases ha : entries.all validEntry
        · rw [if_pos ha, Except.ok.injEq] at hl
          exact hl.symm
        · rw [if_neg ha] at hl; exact absurd hl (by simp)

/-- Claim C9 (amended, witness): the concrete negative-amount request is
persisted verbatim. -/
theorem add_entries_schema_amended_witness :
    ([⟨"MIS", -5, "snack", none⟩] : List Entry) =
      ([⟨JsVal.str "MIS", JsVal.num (-5), JsVal.str "snack", JsVal.undef⟩] :
        List RawEntry).map parseEntry :=
  (add_entries_schema_amended
      [⟨JsVal.str "MIS", JsVal.num (-5), JsVal.str "snack", JsVal.undef⟩]
      "2024-01-15").2
    [⟨"MIS", -5, "snack", none⟩] (by decide)

/-! ## Lemmas about the reconciliation spend loop -/

theorem stepEntry_bucket (tax : List CatNode) (cats : SMapQ) (st : SMapQ × ℤ)
    (e : Entry) :
    stepEntry tax cats st e =
      match bucketKey tax cats e.code with
      | some k => (bump st.1 k e.amount, st.2)
      | none => (st.1, st.2 + e.amount) := by
  unfold stepEntry bucketKey
  by_cases h1 : truthy cats e.code = true
  · simp [h1]
  · simp only [if_neg h1]
    cases hp : parentOf tax e.code with
    | some p =>
      by_cases h2 : p ≠ "" ∧ truthy cats p = true
      · simp [h2]
      · simp [h2]
    | none => simp

theorem bucketKey_truthy (tax : List CatNode) (cats : SMapQ) (c k : String)
    (h : bucketKey tax cats c = some k) : truthy cats k = true := by
  unfold bucketKey at h
  by_cases h1 : truthy cats c = true
  · rw [if_pos h1, Option.some.injEq] at h
    subst h; exact h1
  · rw [if_neg h1] at h
    cases hp : parentOf tax c with
    | some p =>
      rw [hp] at h
      simp only [] at h
      by_cases h2 : p ≠ "" ∧ truthy cats p = true
      · rw [if_pos h2, Option.some.injEq] at h
        subst h; exact h2.2
      · rw [if_neg h2] at h; exact absurd h (by simp)
    | none => rw [hp] at h; exact absurd h (by simp)

theorem spendFold_misc_aux (tax : List CatNode) (cats : SMapQ) :
    ∀ (entries : List Entry) (st : SMapQ × ℤ),
      (List.foldl (stepEntry tax cats) st entries).2 =
        st.2 + ((entries.filter
          (fun e => (bucketKey tax cats e.code).isNone)).map Entry.amount).sum := by
  intro entries
  induction entries with
  | nil => intro st; simp
  | cons e t ih =>
    intro st
    rw [List.foldl_cons, ih, stepEntry_bucket]
    cases hb : bucketKey tax cats e.code with
    | some k => simp [List.filter_cons, hb]
    | none =>
      simp [List.filter_cons, hb]
      ring

theorem spendFold_getD_aux (tax : List CatNode) (cats : SMapQ) (k : String) :
    ∀ (entries : List Entry) (st : SMapQ × ℤ),
      getDQ (List.foldl (stepEntry tax cats) st entries).1 k =
        getDQ st.1 k + ((entries.filter
          (fun e => decide (bucketKey tax cats e.code = some k))).map
            Entry.amount).sum := by
  intro entries
  induction entries with
  | nil => intro st; simp
  | cons e t ih =>
    intro st
    rw [List.foldl_cons, ih, stepEntry_bucket]
    cases hb : bucketKey tax cats e.code with
    | some c =>
      by_cases hck : c = k
      · subst hck
        simp [List.filter_cons, hb, getDQ_bump]
        ring
      · simp [List.filter_cons, hb, hck, getDQ_bump]
    | none => simp [List.filter_cons, hb]

theorem spendFold_lookup_none_aux (tax : List CatNode) (cats : SMapQ)
    (k : String) (hk : truthy cats k = false) :
    ∀ (entries : List Entry) (st : SMapQ × ℤ), sLookup st.1 k = none →
      sLookup (List.foldl (stepEntry tax cats) st entries).1 k = none := by
  intro entries
  induction entries with
  | nil => intro st h; exact h
  | cons e t ih =>
    intro st h
    rw [List.foldl_cons, stepEntry_bucket]
    cases hb : bucketKey tax cats e.code with
    | some c =>
      have hc : truthy cats c = true := bucketKey_truthy tax cats e.code c hb
      have hck : c ≠ k := by
        intro hh; rw [hh, hk] at hc; exact Bool.noConfusion hc
      exact ih _ (by rw [sLookup_bump_ne st.1 c k e.amount hck]; exact h)
    | none => exact ih _ h

/-! ## Claim C3: bucket resolution of the reconciliation loop -/

/-- Claim C3 (counterexample): with budget categories containing the
exact key `FOD` allocated 0, an entry coded `FOD` is accumulated into the
miscellaneous spend bucket, not into the `FOD` bucket — the route tests
the allocation for truthiness, so a zero-allocated exact key behaves as
absent, contradicting the claim for categories whose allocated amount is
0. -/
theorem bucket_zero_alloc_cex :
    sLookup [(("FOD" : String), (0 : ℤ))] "FOD" = some 0 ∧
    (remaining [] (some [("2024-01", ⟨100, [("FOD", 0)]⟩)])
        (some [("2024-01", [("05", ⟨some [⟨"FOD", 100, "apples", none⟩]⟩)])])
        "2024-01").map
      (fun r => (getDQ r.expensesByCategory "FOD",
        getDQ r.expensesByCategory "MIS")) = Except.ok (0, 100) := by
  decide

/-- Claim C3 (amended): for every entry of the month, the spend loop
accumulates its amount into the bucket of its code when that code is a
budget key with nonzero allocation; otherwise into the bucket of its
non-empty taxonomy parent when that parent is a budget key with nonzero
allocation; otherwise into the miscellaneous bucket — membership is by
truthiness of the allocated amount, so a key allocated 0 behaves as
absent. -/
theorem bucket_resolution_amended (tax : List CatNode) (cats : SMapQ)
    (entries : List Entry) :
    (spendFold tax cats entries).2 =
      ((entries.filter (fun e => (bucketKey tax cats e.code).isNone)).map
        Entry.amount).sum ∧
    ∀ k, getDQ (spendFold tax cats entries).1 k =
      ((entries.filter (fun e => decide (bucketKey tax cats e.code = some k))).map
        Entry.amount).sum := by
  constructor
  · simpa using spendFold_misc_aux tax cats entries ([], 0)
  · intro k
    simpa [getDQ] using spendFold_getD_aux tax cats k entries ([], 0)

/-! ## Claim C2: reconciliation totals -/

/-- Claim C2 (counterexample): for a budget whose categories contain the
key `MIS` (allocated 50) and an entry coded `MIS` of amount 30, the route
reports totalSpent 30 while the returned per-category spend buckets sum
to 0 — writing the synthetic `MIS` key overwrites the accumulated exact
`MIS` bucket, so totalSpent is not the sum of the returned buckets. -/
theorem recon_totals_cex :
    (remaining [] (some [("2024-01", ⟨100, [("MIS", 50)]⟩)])
        (some [("2024-01", [("05", ⟨some [⟨"MIS", 30, "stuff", none⟩]⟩)])])
        "2024-01").map
      (fun r => (r.totalSpent, sumVals r.expensesByCategory)) =
      Except.ok (30, 0) ∧
    (30 : ℤ) ≠ 0 := by
  decide

/-- Claim C2 (amended): for every reconciliation result of an existing
budget, totalRemaining equals the budget total minus totalSpent; and
totalSpent equals the sum of the returned per-category spend buckets
including `MIS`, provided the budget categories do not contain a truthy
`MIS` key of their own (in which case the synthetic `MIS` entry would
overwrite the accumulated one). -/
theorem recon_totals_amended (tax : List CatNode)
    (bdoc : Option (List (String × Budget))) (edoc : Option EntriesStore)
    (month : String) (r : ReconResult)
    (h : remaining tax bdoc edoc month = Except.ok r)
    (hmis : truthy r.originalBudget.categories "MIS" = false) :
    r.totalRemaining = r.originalBudget.total - r.totalSpent ∧
    r.totalSpent = sumVals r.expensesByCategory := by
  simp only [remaining] at h
  by_cases hv : isValidMonthStr month = false
  · rw [if_pos hv] at h; exact absurd h (by simp)
  · rw [if_neg hv] at h
    cases hb : bdoc.bind (fun d => sLookup d month) with
    | none => rw [hb] at h; exact absurd h (by simp)
    | some b =>
      rw [hb] at h
      simp only [] at h
      rw [Except.ok.injEq] at h
      subst h
      refine ⟨rfl, ?_⟩
      have hn : sLookup
          (spendFold tax b.categories
            (flattenMonth ((edoc.bind (fun d => sLookup d month)).getD []))).1
          "MIS" = none :=
        spendFold_lookup_none_aux tax b.categories "MIS" hmis _ _ rfl
      show sumVals (spendFold tax b.categories
          (flattenMonth ((edoc.bind (fun d => sLookup d month)).getD []))).1 +
        (spendFold tax b.categories
          (flattenMonth ((edoc.bind (fun d => sLookup d month)).getD []))).2 =
        sumVals (setKey (spendFold tax b.categories
          (flattenMonth ((edoc.bind (fun d => sLookup d month)).getD []))).1
          "MIS"
          (spendFold tax b.categories
            (flattenMonth ((edoc.bind (fun d => sLookup d month)).getD []))).2)
      rw [sumVals_setKey_none _ _ _ hn]

/-- Claim C2 (amended, witness): a concrete reconciliation — budget total
100 with `FOD` allocated 50, one `FOD` entry of 30 — satisfies both total
identities. -/
theorem recon_totals_amended_witness :
    (ReconResult.mk ⟨100, [("FOD", 50)]⟩ 30 70 [("FOD", 20), ("MIS", 50)]
        [("FOD", 30), ("MIS", 0)]).totalRemaining =
      (ReconResult.mk ⟨100, [("FOD", 50)]⟩ 30 70 [("FOD", 20), ("MIS", 50)]
        [("FOD", 30), ("MIS", 0)]).originalBudget.total -
      (ReconResult.mk ⟨100, [("FOD", 50)]⟩ 30 70 [("FOD", 20), ("MIS", 50)]
        [("FOD", 30), ("MIS", 0)]).totalSpent ∧
    (ReconResult.mk ⟨100, [("FOD", 50)]⟩ 30 70 [("FOD", 20), ("MIS", 50)]
        [("FOD", 30), ("MIS", 0)]).totalSpent =
      sumVals (ReconResult.mk ⟨100, [("FOD", 50)]⟩ 30 70 [("FOD", 20), ("MIS", 50)]
        [("FOD", 30), ("MIS", 0)]).expensesByCategory :=
  recon_totals_amended []
    (some [("2024-01", ⟨100, [("FOD", 50)]⟩)])
    (some [("2024-01", [("05", ⟨some [⟨"FOD", 30, "apples", none⟩]⟩)])])
    "2024-01"
    (ReconResult.mk ⟨100, [("FOD", 50)]⟩ 30 70 [("FOD", 20), ("MIS", 50)]
      [("FOD", 30), ("MIS", 0)])
    (by decide) (by decide)

/-! ## Claim C8: yearly savings aggregation -/

theorem yearFold_savings_aux (idoc : Option IncomeDoc)
    (edoc : Option EntriesStore) :
    ∀ (months : List String) (acc : YearlyAcc),
      ((months.foldl (yearStep idoc edoc) acc).monthlyData.map
          MonthFig.savings).sum -
        ((months.foldl (yearStep idoc edoc) acc).totalIncome -
          (months.foldl (yearStep idoc edoc) acc).totalExpenses) =
      (acc.monthlyData.map MonthFig.savings).sum -
        (acc.totalIncome - acc.totalExpenses) := by
  intro months
  induction months with
  | nil => intro acc; rfl
  | cons m t ih =>
    intro acc
    rw [List.foldl_cons, ih]
    simp [yearStep]
    ring

/-- Claim C8: for every yearlySavings result, the sum of the savings
fields of the twelve monthly breakdown rows equals summary.totalSavings,
which is summary.totalIncome minus summary.totalExpenses. -/
theorem yearly_savings_sum (idoc : Option IncomeDoc)
    (edoc : Option EntriesStore) (year : String) :
    ((yearlySavings idoc edoc year).monthlyBreakdown.map MonthFig.savings).sum =
      (yearlySavings idoc edoc year).summary.totalSavings ∧
    (yearlySavings idoc edoc year).summary.totalSavings =
      (yearlySavings idoc edoc year).summary.totalIncome -
        (yearlySavings idoc edoc year).summary.totalExpenses := by
  refine ⟨?_, rfl⟩
  have h := yearFold_savings_aux idoc edoc (yearMonths year) ⟨[], 0, 0⟩
  simp only [List.map_nil, List.sum_nil] at h
  show (((yearMonths year).foldl (yearStep idoc edoc)
      ⟨[], 0, 0⟩).monthlyData.map MonthFig.savings).sum =
    ((yearMonths year).foldl (yearStep idoc edoc) ⟨[], 0, 0⟩).totalIncome -
      ((yearMonths year).foldl (yearStep idoc edoc) ⟨[], 0, 0⟩).totalExpenses
  omega

/-! ## Lemmas about the chat orchestrator -/

theorem dispatchOne_intent (outcome : Nat → Except String String) (k : Nat)
    (i : Intent) : (dispatchOne outcome k i).intent = i := by
  unfold dispatchOne
  by_cases h : i.name ∈ supportedIntents
  · rw [if_pos h]; cases outcome k <;> rfl
  · rw [if_neg h]

theorem filterMap_get_length {α : Type} (l : List Intent)
    (f : Nat → Intent → α) :
    ∀ (order : List Nat), (∀ k ∈ order, k < l.length) →
      (order.filterMap (fun k => (l.get? k).map (f k))).length =
        order.length := by
  intro order
  induction order with
  | nil => intro h; rfl
  | cons k t ih =>
    intro h
    have hk : k < l.length := h k (List.mem_cons_self k t)
    have hsome : (l.get? k).map (f k) = some (f k (l.get ⟨k, hk⟩)) := by
      rw [List.get?_eq_get hk]; rfl
    rw [@List.filterMap_cons_some ℕ α (fun j => (l.get? j).map (f j)) k t
        (f k (l.get ⟨k, hk⟩)) hsome,
      List.length_cons, ih (fun x hx => h x (List.mem_cons_of_mem k hx))]
    rfl

theorem chatHandle_records (intents : List Intent)
    (outcome : Nat → Except String String) (order : List Nat)
    (phrase1 : String → String) (phraseN : List ChatRecord → String)
    (hrej : jsReject intents = false) :
    (chatHandle intents outcome order phrase1 phraseN).records =
      order.filterMap
        (fun k => (intents.get? k).map (fun i => dispatchOne outcome k i)) ∧
    (chatHandle intents outcome order phrase1 phraseN).status = 200 ∧
    (chatHandle intents outcome order phrase1 phraseN).combined =
      some (combineResults (order.filterMap
        (fun k => (intents.get? k).map (fun i => dispatchOne outcome k i)))) := by
  refine ⟨?_, ?_, ?_⟩ <;> simp [chatHandle, hrej]

/-! ## Claim C5: per-intent isolation of the chat dispatch -/

/-- Claim C5: when the resolver's list passes the fail-fast check, every
intent yields exactly one collected record — the records are a
permutation (the branch completion order) of one record per intent
position, each determined only by that intent's own outcome — and the
response status is 200, never a bare server error, whatever mix of
successes and failures the outcomes contain. -/
theorem chat_intent_isolation (intents : List Intent)
    (outcome : Nat → Except String String) (order : List Nat)
    (phrase1 : String → String) (phraseN : List ChatRecord → String)
    (hperm : order.Perm (List.range intents.length))
    (hrej : jsReject intents = false) :
    (chatHandle intents outcome order phrase1 phraseN).status = 200 ∧
    (chatHandle intents outcome order phrase1 phraseN).records.Perm
      (canonicalRecords intents outcome) ∧
    (chatHandle intents outcome order phrase1 phraseN).records.length =
      intents.length := by
  obtain ⟨hrec, hst, _⟩ :=
    chatHandle_records intents outcome order phrase1 phraseN hrej
  refine ⟨hst, ?_, ?_⟩
  · rw [hrec]
    exact hperm.filterMap _
  · rw [hrec]
    have hmem : ∀ k ∈ order, k < intents.length := fun k hk =>
      List.mem_range.mp (hperm.mem_iff.mp hk)
    rw [filterMap_get_length intents (fun k i => dispatchOne outcome k i)
        order hmem,
      hperm.length_eq, List.length_range]

/-- Claim C5 (witness): two intents, the first hitting a nonexistent
month (a caught 404) and the second succeeding, both reported, with
status 200. -/
theorem chat_intent_isolation_witness :
    (chatHandle [⟨"getBudget", "2024-01"⟩, ⟨"getIncome", "2024-01"⟩] outcomeB
        [1, 0] phraseStub phraseStubN).status = 200 ∧
    (chatHandle [⟨"getBudget", "2024-01"⟩, ⟨"getIncome", "2024-01"⟩] outcomeB
        [1, 0] phraseStub phraseStubN).records.Perm
      (canonicalRecords [⟨"getBudget", "2024-01"⟩, ⟨"getIncome", "2024-01"⟩]
        outcomeB) ∧
    (chatHandle [⟨"getBudget", "2024-01"⟩, ⟨"getIncome", "2024-01"⟩] outcomeB
        [1, 0] phraseStub phraseStubN).records.length =
      ([⟨"getBudget", "2024-01"⟩, ⟨"getIncome", "2024-01"⟩] : List Intent).length :=
  chat_intent_isolation [⟨"getBudget", "2024-01"⟩, ⟨"getIncome", "2024-01"⟩]
    outcomeB [1, 0] phraseStub phraseStubN (by decide) (by decide)

/-! ## Claim C6: ordering of the combined result keys -/

/-- Claim C6 (counterexample): with two intents getBudget then getIncome
and the branch for the second intent completing first, the keyed
structure has result1 holding getIncome — not the first intent of the
resolver's list, which is getBudget — so the original ordering is not
preserved. -/
theorem chat_order_cex :
    (chatHandle [⟨"getBudget", "2024-01"⟩, ⟨"getIncome", "2024-01"⟩] outcomeA
        [1, 0] phraseStub phraseStubN).combined =
      some (ChatCombined.multi
        [("getIncome", "income-data"), ("getBudget", "budget-data")]) ∧
    (([⟨"getBudget", "2024-01"⟩, ⟨"getIncome", "2024-01"⟩] : List Intent).get? 0).map
        Intent.name = some "getBudget" ∧
    ("getIncome" : String) ≠ "getBudget" := by
  decide

/-- Claim C6 (amended): with at least two intents, the keyed combined
structure lists one entry per intent in branch completion order — entry K
holds the intent name and data of the K-th intent to complete — which
coincides with the resolver's original ordering exactly when the branches
complete in dispatch order. -/
theorem chat_order_amended (intents : List Intent)
    (outcome : Nat → Except String String) (order : List Nat)
    (phrase1 : String → String) (phraseN : List ChatRecord → String)
    (h2 : 2 ≤ intents.length) (hperm : order.Perm (List.range intents.length)) :
    (chatHandle intents outcome order phrase1 phraseN).combined =
      some (ChatCombined.multi (order.filterMap
        (fun k => (intents.get? k).map
          (fun i => (i.name, (dispatchOne outcome k i).data))))) := by
  have hrej : jsReject intents = false := by
    rcases intents with _ | ⟨a, _ | ⟨b, u⟩⟩
    · simp at h2
    · simp at h2
    · rfl
  obtain ⟨_, _, hcomb⟩ :=
    chatHandle_records intents outcome order phrase1 phraseN hrej
  rw [hcomb]
  have hmem : ∀ k ∈ order, k < intents.length := fun k hk =>
    List.mem_range.mp (hperm.mem_iff.mp hk)
  have hlen : (order.filterMap
      (fun k => (intents.get? k).map (fun i => dispatchOne outcome k i))).length =
      intents.length := by
    rw [filterMap_get_length intents (fun k i => dispatchOne outcome k i)
        order hmem,
      hperm.length_eq, List.length_range]
  have hne : ¬ ((order.filterMap
      (fun k => (intents.get? k).map
        (fun i => dispatchOne outcome k i))).length = 1) := by
    rw [hlen]; omega
  rw [combineResults, if_neg hne]
  congr 1
  congr 1
  rw [List.map_filterMap]
  congr 1
  funext x
  cases hx : intents.get? x with
  | none => rfl
  | some i => simp [dispatchOne_intent]

/-- Claim C6 (amended, witness): the concrete two-intent request with the
branches completing in reverse order produces the reverse-keyed combined
structure. -/
theorem chat_order_amended_witness :
    (chatHandle [⟨"getBudget", "2024-01"⟩, ⟨"getIncome", "2024-01"⟩] outcomeA
        [1, 0] phraseStub phraseStubN).combined =
      some (ChatCombined.multi ([1, 0].filterMap
        (fun k => (([⟨"getBudget", "2024-01"⟩, ⟨"getIncome", "2024-01"⟩] :
            List Intent).get? k).map
          (fun i => (i.name, (dispatchOne outcomeA k i).data))))) :=
  chat_order_amended [⟨"getBudget", "2024-01"⟩, ⟨"getIncome", "2024-01"⟩]
    outcomeA [1, 0] phraseStub phraseStubN (by decide) (by decide)

/-! ## Claim C7: fail-fast on no usable intent -/

/-- Claim C7: when the resolver returns no intents, or exactly one intent
named by the `unknown` sentinel, the handler returns the 400 response
with the fixed clarification reply, collects no records, and performs no
downstream dispatch at all. -/
theorem chat_reject_no_intent (intents : List Intent)
    (outcome : Nat → Except String String) (order : List Nat)
    (phrase1 : String → String) (phraseN : List ChatRecord → String)
    (h : intents = [] ∨ ∃ i, intents = [i] ∧ i.name = "unknown") :
    chatHandle intents outcome order phrase1 phraseN =
      ⟨400, clarificationReply, [], none⟩ := by
  have hr : jsReject intents = true := by
    rcases h with h | ⟨i, hi, hn⟩
    · subst h; rfl
    · subst hi; simp [jsReject, hn]
  simp [chatHandle, hr]

/-- Claim C7 (witness): a resolver output consisting of the single
`unknown` sentinel intent is rejected with the fixed reply and no
records. -/
theorem chat_reject_no_intent_witness :
    chatHandle [⟨"unknown", ""⟩] outcomeA [0] phraseStub phraseStubN =
      ⟨400, clarificationReply, [], none⟩ :=
  chat_reject_no_intent [⟨"unknown", ""⟩] outcomeA [0] phraseStub phraseStubN
    (Or.inr ⟨⟨"unknown", ""⟩, rfl, rfl⟩)
